import Mathlib

/-!
Shallow embedding of the CSV → vector-store ingestion pipeline
(`utils/ingest_data_in_single_collection.py` and
`utils/ingest_data_in_separate_collections.py`).

A parsed CSV file is modelled as a list of rows, each row the list of
`(column, value)` string pairs in file column order (what `row.items()`
yields).  Python dictionaries are modelled as ordered association lists
with overwrite-in-place insertion (`dictInsert`), matching dict
semantics.  The external effects (the embedding provider and the Chroma
store behind `vector_store.add_documents`) are abstracted as an injected
`submit` function returning success or an error message; environment
variables are an injected `String → Option String` map.
-/

namespace Ingest

/-- A metadata value: the source stores strings (CSV cell values, file
names) and the integer `row_index`. -/
inductive MetaVal where
  | str (s : String)
  | nat (n : Nat)
deriving DecidableEq

/-- A Python dict with string keys, modelled as an ordered association
list whose keys are kept unique by `dictInsert`. -/
abbrev Metadata := List (String × MetaVal)

/-- `d[k] = v` assignment on a Python dict: overwrite in place when the
key is already present, otherwise append the new binding. -/
def dictInsert (m : Metadata) (k : String) (v : MetaVal) : Metadata :=
  if m.any (fun p => p.1 == k) then
    m.map (fun p => if p.1 = k then (k, v) else p)
  else
    m ++ [(k, v)]

/-- `d[k]` lookup on the dict model (first, hence unique, binding). -/
def mlookup (k : String) : Metadata → Option MetaVal
  | [] => none
  | p :: ps => if p.1 = k then some p.2 else mlookup k ps

/-- `langchain_core.documents.Document`: page content plus metadata. -/
structure Document where
  page_content : String
  metadata : Metadata
deriving DecidableEq

/-- One CSV row as produced by `row.items()`: `(column, value)` pairs in
file column order. -/
abbrev Row := List (String × String)

/-- Split a character list at every occurrence of `sep`; the resulting
list of components is never empty. -/
def splitOnChar (sep : Char) : List Char → List (List Char)
  | [] => [[]]
  | c :: cs =>
    match splitOnChar sep cs with
    | [] => [[]]
    | g :: gs => if c = sep then [] :: g :: gs else (c :: g) :: gs

/-- `os.path.basename`: the final path component, after the last slash. -/
def basename (p : String) : String :=
  String.mk ((splitOnChar '/' p.data).getLastD [])

/-- Index of the last dot in a file name, if any. -/
def lastDotIdx (l : List Char) : Option Nat :=
  ((l.enum.filter (fun p => p.2 == '.')).map (fun p => p.1)).getLast?

/-- `pathlib.PurePath.stem` on a bare file name: drop the last suffix,
where a suffix starts at a dot that is neither the first nor the last
character of the name. -/
def stemChars (name : List Char) : List Char :=
  match lastDotIdx name with
  | none => name
  | some i => if 0 < i ∧ i + 1 < name.length then name.take i else name

/-- `Path(file_path).stem`: the stem of the final path component. -/
def stem (p : String) : String :=
  String.mk (stemChars ((splitOnChar '/' p.data).getLastD []))

/-- Apply a character map to a string (a string is its list of chars). -/
def strMap (f : Char → Char) (s : String) : String := String.mk (s.data.map f)

/-- What `str.replace(old, new)` does to one character, for
one-character `old` and `new`. -/
def replFn (a b : Char) : Char → Char := fun c => if c = a then b else c

/-- Python `str.replace(old, new)` for one-character arguments. -/
def replChar (a b : Char) (s : String) : String :=
  strMap (replFn a b) s

/-- Python `str.lower` on one character (ASCII case; the pipeline's file
names are ASCII). -/
def lowerChar (c : Char) : Char :=
  if 65 ≤ c.toNat ∧ c.toNat ≤ 90 then Char.ofNat (c.toNat + 32) else c

/-- Python `str.lower` (ASCII). -/
def lowerStr (s : String) : String := strMap lowerChar s

/-- `get_collection_name`: `Path(file_path).stem`, then
`.replace(" ", "_").replace("-", "_").lower()`. -/
def get_collection_name (file_path : String) : String :=
  lowerStr (replChar '-' '_' (replChar ' ' '_' (stem file_path)))

/-- The row body `" | ".join([f"{col}: {val}" for col, val in row.items()])`. -/
def render_row (row : Row) : String :=
  String.intercalate " | " (row.map (fun cv => cv.1 ++ ": " ++ cv.2))

/-- The row metadata: the dict literal seeding `source`, `row_index` and
`file_path`, then `metadata[col] = val` for every column in order. -/
def row_metadata (file_path : String) (index : Nat) (row : Row) : Metadata :=
  row.foldl (fun m cv => dictInsert m cv.1 (MetaVal.str cv.2))
    [("source", MetaVal.str (basename file_path)),
     ("row_index", MetaVal.nat index),
     ("file_path", MetaVal.str file_path)]

/-- `load_csv_as_documents`: one `Document` per row of the parsed file,
in row order, `index` running from 0 (the default range index that
`df.iterrows()` yields for `pd.read_csv`). -/
def load_csv_as_documents (file_path : String) (df : List Row) : List Document :=
  df.enum.map (fun p =>
    { page_content := render_row p.2, metadata := row_metadata file_path p.1 p.2 })

/-- One round per `i in range(0, len(l), B)` of the ingestion loop:
`l.take B` is the slice `l[i:i+B]` and the recursion advances past it.
`fuel` bounds the number of rounds; `chunkList` passes `l.length`, which
is enough whenever `0 < B` since every round consumes a nonempty slice. -/
def chunkAux {α : Type} (B : Nat) : Nat → List α → List (List α)
  | 0, _ => []
  | _ + 1, [] => []
  | fuel + 1, x :: xs => ((x :: xs).take B) :: chunkAux B fuel ((x :: xs).drop B)

/-- The batch slices `l[i:i+B]` for `i in range(0, len(l), B)`. -/
def chunkList {α : Type} (B : Nat) (l : List α) : List (List α) :=
  chunkAux B l.length l

/-- An error escaping an entry point: the startup credential check, or an
ingestion error re-raised by the single-collection driver. -/
inductive MainError where
  | config (msg : String)
  | submitErr (msg : String)
deriving DecidableEq

deriving instance DecidableEq for Except

/-- One discovered CSV file: its path and the outcome of `pd.read_csv`
(an error message when the file cannot be parsed as tabular data). -/
structure FileInput where
  path : String
  parse : Except String (List Row)
deriving DecidableEq

/-- `os.getenv("OPENAI_API_KEY")` followed by the falsy check
`if not openai_api_key: raise ValueError(...)`; Python treats both a
missing variable and the empty string as falsy. -/
def getApiKey (env : String → Option String) : Except MainError String :=
  match env "OPENAI_API_KEY" with
  | none => Except.error (MainError.config "OPENAI_API_KEY environment variable is required")
  | some k =>
    if k = "" then
      Except.error (MainError.config "OPENAI_API_KEY environment variable is required")
    else Except.ok k

/-- Per-file outcome of the load loop of the single-collection driver. -/
inductive LoadResult where
  | ok (path : String) (docs : List Document)
  | err (path : String) (msg : String)
deriving DecidableEq

/-- The load loop of `ingest_data_in_single_collection.main`: each file
loaded independently, an exception recorded as that file's failure. -/
def loadPhase (files : List FileInput) : List LoadResult :=
  files.map (fun f =>
    match f.parse with
    | Except.ok df => LoadResult.ok f.path (load_csv_as_documents f.path df)
    | Except.error e => LoadResult.err f.path e)

/-- `all_documents`: the concatenation, in discovery order, of the
documents of the successfully loaded files. -/
def allDocs (rs : List LoadResult) : List Document :=
  (rs.map (fun r =>
    match r with
    | LoadResult.ok _ docs => docs
    | LoadResult.err _ _ => [])).flatten

/-- Submit the batches in order to the named collection
(`vector_store.add_documents(batch)`), stopping at the first error; on
success return the `(collection, batch)` submission log. -/
def submitBatches (submit : String → List Document → Except String Unit) (name : String) :
    List (List Document) → Except String (List (String × List Document))
  | [] => Except.ok []
  | b :: bs =>
    match submit name b with
    | Except.error e => Except.error e
    | Except.ok _ =>
      match submitBatches submit name bs with
      | Except.error e => Except.error e
      | Except.ok log => Except.ok ((name, b) :: log)

/-- What a single-collection run did: the per-file load outcomes and the
`(collection, batch)` submissions. -/
structure SingleReport where
  loads : List LoadResult
  submissions : List (String × List Document)
deriving DecidableEq

/-- `main` of `ingest_data_in_single_collection.py`: credential check,
per-file load loop with per-file exception handling, concatenation into
`all_documents`, then batched submission to the fixed collection
`"techmart_data"`; a submission error is printed and re-raised. -/
def main_single (env : String → Option String) (files : List FileInput)
    (submit : String → List Document → Except String Unit) :
    Except MainError SingleReport :=
  match getApiKey env with
  | Except.error e => Except.error e
  | Except.ok _ =>
    if files.isEmpty then Except.ok ⟨[], []⟩
    else
      if (allDocs (loadPhase files)).isEmpty then Except.ok ⟨loadPhase files, []⟩
      else
        match submitBatches submit "techmart_data"
            (chunkList 100 (allDocs (loadPhase files))) with
        | Except.error e => Except.error (MainError.submitErr e)
        | Except.ok log => Except.ok ⟨loadPhase files, log⟩

/-- Per-file outcome of the separate-collections driver. -/
inductive FileResult where
  | success (path : String) (collection : String) (count : Nat)
  | failure (path : String) (msg : String)
  | skippedEmpty (path : String)
deriving DecidableEq

/-- The body of the per-file try block of
`ingest_data_in_separate_collections.main`: route to a collection name,
load, skip an empty file, submit in batches; any error raised inside the
block becomes a recorded per-file failure. -/
def processFileSep (submit : String → List Document → Except String Unit)
    (f : FileInput) : FileResult :=
  match f.parse with
  | Except.error e => FileResult.failure f.path e
  | Except.ok df =>
    if (load_csv_as_documents f.path df).isEmpty then FileResult.skippedEmpty f.path
    else
      match submitBatches submit (get_collection_name f.path)
          (chunkList 100 (load_csv_as_documents f.path df)) with
      | Except.error e => FileResult.failure f.path e
      | Except.ok _ =>
        FileResult.success f.path (get_collection_name f.path)
          (load_csv_as_documents f.path df).length

/-- `main` of `ingest_data_in_separate_collections.py`: credential check,
then the per-file loop, every file processed inside its own try block. -/
def main_separate (env : String → Option String) (files : List FileInput)
    (submit : String → List Document → Except String Unit) :
    Except MainError (List FileResult) :=
  match getApiKey env with
  | Except.error e => Except.error e
  | Except.ok _ =>
    if files.isEmpty then Except.ok []
    else Except.ok (files.map (processFileSep submit))

/-- Modelled from the spec: *Separate mode*: `name = stem(file_path)`,
transformed by: lower-case, replace each space and hyphen with
underscore (the spec's operation order; the source lower-cases last). -/
def spec_collection_name_of_stem (s : String) : String :=
  replChar '-' '_' (replChar ' ' '_' (lowerStr s))

/-- The value of the last column named `k` in a row: with sequential
`metadata[col] = val` assignments, the last write wins. -/
def lastCol (k : String) : Row → Option String
  | [] => none
  | cv :: rest =>
    match lastCol k rest with
    | some v => some v
    | none => if cv.1 = k then some cv.2 else none

/-! ### Concrete fixtures used by counterexamples and witnesses -/

/-- An environment holding a non-empty API key. -/
def envOK : String → Option String :=
  fun v => if v = "OPENAI_API_KEY" then some "sk-test" else none

/-- An environment with no API key at all. -/
def envMissing : String → Option String := fun _ => none

/-- An environment where the API key is present but empty. -/
def envEmptyKey : String → Option String :=
  fun v => if v = "OPENAI_API_KEY" then some "" else none

/-- A store/embedding stub that accepts every batch. -/
def okSubmit : String → List Document → Except String Unit :=
  fun _ _ => Except.ok ()

/-- A store/embedding stub that rejects every batch. -/
def badSubmit : String → List Document → Except String Unit :=
  fun _ _ => Except.error "boom"

/-- A one-row CSV file that parses fine. -/
def fileA : FileInput := ⟨"data/a.csv", Except.ok [[("name", "x")]]⟩

/-- A second one-row CSV file that parses fine. -/
def fileB : FileInput := ⟨"data/b.csv", Except.ok [[("name", "y")]]⟩

/-- A malformed CSV file: `pd.read_csv` raises. -/
def fileBad : FileInput := ⟨"data/bad.csv", Except.error "ParserError: malformed"⟩

/-- Three tiny documents for the batching witness. -/
def docsW : List Document := [⟨"a", []⟩, ⟨"b", []⟩, ⟨"c", []⟩]

/-! ### Dictionary lemmas -/

theorem mlookup_map_ne (m : Metadata) (k k' : String) (v : MetaVal) (h : k' ≠ k) :
    mlookup k' (m.map (fun p => if p.1 = k then (k, v) else p)) = mlookup k' m := by
  induction m with
  | nil => rfl
  | cons p ps ih =>
    by_cases hp : p.1 = k
    · simp [mlookup, hp, Ne.symm h, ih]
    · simp only [List.map_cons, if_neg hp, mlookup, ih]

theorem mlookup_map_self (m : Metadata) (k : String) (v : MetaVal)
    (h : m.any (fun p => p.1 == k) = true) :
    mlookup k (m.map (fun p => if p.1 = k then (k, v) else p)) = some v := by
  induction m with
  | nil => simp at h
  | cons p ps ih =>
    by_cases hp : p.1 = k
    · simp [mlookup, hp]
    · have hps : ps.any (fun p => p.1 == k) = true := by
        simpa [List.any_cons, hp] using h
      simp only [List.map_cons, if_neg hp, mlookup, if_neg hp]
      exact ih hps

theorem mlookup_eq_none (m : Metadata) (k : String)
    (h : m.any (fun p => p.1 == k) = false) : mlookup k m = none := by
  induction m with
  | nil => rfl
  | cons p ps ih =>
    simp only [List.any_cons, Bool.or_eq_false_iff, beq_eq_false_iff_ne] at h
    simp only [mlookup, if_neg h.1]
    exact ih h.2

theorem mlookup_append (k : String) (l1 l2 : Metadata) :
    mlookup k (l1 ++ l2) =
      match mlookup k l1 with
      | some v => some v
      | none => mlookup k l2 := by
  induction l1 with
  | nil => rfl
  | cons p ps ih =>
    by_cases hp : p.1 = k <;> simp [mlookup, hp, ih]

theorem mlookup_dictInsert (m : Metadata) (k k' : String) (v : MetaVal) :
    mlookup k' (dictInsert m k v) = if k' = k then some v else mlookup k' m := by
  unfold dictInsert
  by_cases hmem : m.any (fun p => p.1 == k) = true
  · rw [if_pos hmem]
    by_cases hk : k' = k
    · subst hk
      rw [if_pos rfl, mlookup_map_self m k' v hmem]
    · rw [if_neg hk, mlookup_map_ne m k k' v hk]
  · rw [if_neg hmem, mlookup_append]
    have hnone : mlookup k m = none :=
      mlookup_eq_none m k (Bool.eq_false_iff.mpr hmem)
    by_cases hk : k' = k
    · subst hk
      rw [hnone]
      simp [mlookup]
    · cases h2 : mlookup k' m with
      | some w => simp [hk]
      | none => simp [mlookup, hk, Ne.symm hk]

theorem mlookup_foldl (row : Row) (m0 : Metadata) (k : String) :
    mlookup k (row.foldl (fun m cv => dictInsert m cv.1 (MetaVal.str cv.2)) m0) =
      match lastCol k row with
      | some v => some (MetaVal.str v)
      | none => mlookup k m0 := by
  induction row generalizing m0 with
  | nil => rfl
  | cons cv rest ih =>
    simp only [List.foldl_cons, lastCol]
    rw [ih]
    cases h : lastCol k rest with
    | some v => rfl
    | none =>
      simp only [mlookup_dictInsert]
      by_cases hk : k = cv.1
      · rw [if_pos hk, if_pos hk.symm]
      · rw [if_neg hk, if_neg (fun h' => hk h'.symm)]

theorem lastCol_eq_none (row : Row) (k : String) (h : ∀ cv ∈ row, cv.1 ≠ k) :
    lastCol k row = none := by
  induction row with
  | nil => rfl
  | cons cv rest ih =>
    simp only [lastCol, ih (fun c hc => h c (List.mem_cons_of_mem _ hc))]
    rw [if_neg (h cv (List.mem_cons_self _ _))]

theorem lastCol_of_mem (row : Row) (k : String) (v : String)
    (hnd : (row.map Prod.fst).Nodup) (hm : (k, v) ∈ row) :
    lastCol k row = some v := by
  induction row with
  | nil => cases hm
  | cons cv rest ih =>
    rw [List.map_cons, List.nodup_cons] at hnd
    rcases List.mem_cons.mp hm with heq | hmem
    · subst heq
      have hkeys : ∀ c ∈ rest, c.1 ≠ k := by
        intro c hc hck
        have h1 : c.1 ∈ rest.map Prod.fst := List.mem_map_of_mem Prod.fst hc
        rw [hck] at h1
        exact hnd.1 h1
      simp [lastCol, lastCol_eq_none rest k hkeys]
    · simp only [lastCol, ih hnd.2 hmem]

/-! ### Loader lemmas -/

theorem load_length (path : String) (df : List Row) :
    (load_csv_as_documents path df).length = df.length := by
  simp [load_csv_as_documents]

theorem load_getElem? (path : String) (df : List Row) (i : Nat) :
    (load_csv_as_documents path df)[i]? =
      (df[i]?).map (fun row =>
        { page_content := render_row row, metadata := row_metadata path i row }) := by
  unfold load_csv_as_documents
  rw [List.getElem?_map, List.getElem?_enum, Option.map_map]
  cases df[i]? <;> rfl

/-! ### Batching lemmas -/

theorem chunkAux_nil {α : Type} (B fuel : Nat) : chunkAux B fuel ([] : List α) = [] := by
  cases fuel <;> rfl

theorem chunkAux_flatten {α : Type} (B : Nat) (hB : 0 < B) :
    ∀ (fuel : Nat) (l : List α), l.length ≤ fuel → (chunkAux B fuel l).flatten = l := by
  intro fuel
  induction fuel with
  | zero =>
    intro l hl
    rw [List.length_eq_zero.mp (Nat.le_zero.mp hl)]
    rfl
  | succ f ih =>
    intro l hl
    cases l with
    | nil => rfl
    | cons x xs =>
      simp only [chunkAux, List.flatten_cons]
      rw [ih _ ?hlen, List.take_append_drop]
      case hlen =>
        rw [List.length_drop]
        simp only [List.length_cons] at hl ⊢
        omega

theorem chunkAux_length {α : Type} (B : Nat) (hB : 0 < B) :
    ∀ (fuel : Nat) (l : List α), l.length ≤ fuel →
      (chunkAux B fuel l).length = (l.length + B - 1) / B := by
  intro fuel
  induction fuel with
  | zero =>
    intro l hl
    rw [List.length_eq_zero.mp (Nat.le_zero.mp hl)]
    simp only [chunkAux, List.length_nil]
    rw [Nat.div_eq_of_lt (by omega)]
  | succ f ih =>
    intro l hl
    cases l with
    | nil =>
      simp only [chunkAux, List.length_nil]
      rw [Nat.div_eq_of_lt (by omega)]
    | cons x xs =>
      have hdrop : ((x :: xs).drop B).length ≤ f := by
        rw [List.length_drop]
        simp only [List.length_cons] at hl ⊢
        omega
      simp only [chunkAux, List.length_cons]
      rw [ih _ hdrop, List.length_drop]
      simp only [List.length_cons]
      set n : Nat := xs.length + 1 with hn
      have h1 : n + B - 1 = (n - 1) + B := by omega
      rw [h1, Nat.add_div_right _ hB]
      by_cases hnB : B < n
      · have h2 : n - B + B - 1 = (n - 1 - B) + B := by omega
        have h3 : n - 1 = (n - 1 - B) + B := by omega
        rw [h2, Nat.add_div_right _ hB, h3, Nat.add_div_right _ hB]
        have h4 : n - 1 - B + B - B = n - 1 - B := by omega
        rw [h4]
      · have h2 : n - B = 0 := by omega
        rw [h2, Nat.div_eq_of_lt (show 0 + B - 1 < B by omega),
          Nat.div_eq_of_lt (show n - 1 < B by omega)]

theorem chunkAux_dropLast {α : Type} (B : Nat) (hB : 0 < B) :
    ∀ (fuel : Nat) (l : List α), l.length ≤ fuel →
      ∀ b ∈ (chunkAux B fuel l).dropLast, b.length = B := by
  intro fuel
  induction fuel with
  | zero =>
    intro l hl
    rw [List.length_eq_zero.mp (Nat.le_zero.mp hl)]
    simp [chunkAux]
  | succ f ih =>
    intro l hl
    cases l with
    | nil => simp [chunkAux]
    | cons x xs =>
      have hdroplen : ((x :: xs).drop B).length ≤ f := by
        rw [List.length_drop]
        simp only [List.length_cons] at hl ⊢
        omega
      simp only [chunkAux]
      by_cases hd : (x :: xs).drop B = []
      · rw [hd, chunkAux_nil]
        simp
      · have hrest : chunkAux B f ((x :: xs).drop B) ≠ [] := by
          cases hdl : (x :: xs).drop B with
          | nil => exact absurd hdl hd
          | cons y ys =>
            cases f with
            | zero =>
              rw [hdl] at hdroplen
              simp at hdroplen
            | succ f' => simp [chunkAux]
        rw [List.dropLast_cons_of_ne_nil hrest]
        intro b hb
        rcases List.mem_cons.mp hb with hbt | hbr
        · subst hbt
          have hlenB : B ≤ (x :: xs).length := by
            by_contra hcon
            exact hd (List.drop_eq_nil_of_le (by omega))
          rw [List.length_take]
          omega
        · exact ih _ hdroplen b hbr

theorem chunkList_spec {α : Type} (B : Nat) (hB : 0 < B) (l : List α) :
    (chunkList B l).length = (l.length + B - 1) / B ∧
      (∀ b ∈ (chunkList B l).dropLast, b.length = B) ∧
      (chunkList B l).flatten = l :=
  ⟨chunkAux_length B hB l.length l le_rfl,
   chunkAux_dropLast B hB l.length l le_rfl,
   chunkAux_flatten B hB l.length l le_rfl⟩

/-! ### Driver lemmas -/

theorem getApiKey_ok (env : String → Option String) (k : String)
    (h1 : env "OPENAI_API_KEY" = some k) (h2 : k ≠ "") :
    getApiKey env = Except.ok k := by
  unfold getApiKey
  rw [h1]
  exact if_neg h2

theorem submitBatches_ok (submit : String → List Document → Except String Unit)
    (name : String) (h : ∀ b, submit name b = Except.ok ()) :
    ∀ bs : List (List Document),
      submitBatches submit name bs = Except.ok (bs.map (fun b => (name, b))) := by
  intro bs
  induction bs with
  | nil => rfl
  | cons b rest ih => simp only [submitBatches, h b, ih, List.map_cons]

theorem main_separate_ok (env : String → Option String) (k : String)
    (h1 : env "OPENAI_API_KEY" = some k) (h2 : k ≠ "")
    (files : List FileInput) (submit : String → List Document → Except String Unit) :
    main_separate env files submit = Except.ok (files.map (processFileSep submit)) := by
  unfold main_separate
  rw [getApiKey_ok env k h1 h2]
  cases files with
  | nil => rfl
  | cons f fs => rfl

theorem main_single_ok (env : String → Option String) (k : String)
    (h1 : env "OPENAI_API_KEY" = some k) (h2 : k ≠ "")
    (files : List FileInput) (submit : String → List Document → Except String Unit)
    (hs : ∀ b, submit "techmart_data" b = Except.ok ()) :
    main_single env files submit =
      Except.ok ⟨loadPhase files,
        (chunkList 100 (allDocs (loadPhase files))).map (fun b => ("techmart_data", b))⟩ := by
  unfold main_single
  rw [getApiKey_ok env k h1 h2]
  by_cases hf : files.isEmpty
  · rw [List.isEmpty_iff.mp hf]
    rfl
  · simp only [if_neg hf]
    by_cases ha : (allDocs (loadPhase files)).isEmpty
    · rw [if_pos ha, List.isEmpty_iff.mp ha]
      rfl
    · rw [if_neg ha, submitBatches_ok submit "techmart_data" hs _]

theorem allDocs_loadPhase (files : List FileInput) :
    allDocs (loadPhase files) =
      (files.map (fun f =>
        match f.parse with
        | Except.ok df => load_csv_as_documents f.path df
        | Except.error _ => [])).flatten := by
  unfold allDocs loadPhase
  rw [List.map_map]
  congr 1
  congr 1
  funext f
  simp only [Function.comp]
  cases hp : f.parse <;> rfl

/-! ### String-transformation lemmas -/

theorem strMap_strMap (f g : Char → Char) (s : String) :
    strMap g (strMap f s) = strMap (fun c => g (f c)) s := by
  unfold strMap
  simp only [List.map_map]
  rfl

theorem lower_repl_comm (c : Char) :
    lowerChar (replFn '-' '_' (replFn ' ' '_' c)) =
      replFn '-' '_' (replFn ' ' '_' (lowerChar c)) := by
  by_cases h1 : c = ' '
  · subst h1
    decide
  by_cases h2 : c = '-'
  · subst h2
    decide
  simp only [replFn, if_neg h1, if_neg h2]
  by_cases hc : 65 ≤ c.toNat ∧ c.toNat ≤ 90
  · simp only [lowerChar, if_pos hc]
    obtain ⟨hlo, hhi⟩ := hc
    generalize c.toNat = n at hlo hhi ⊢
    interval_cases n <;> decide
  · simp only [lowerChar, if_neg hc, replFn, if_neg h1, if_neg h2]

/-! ### Claim theorems -/

/-- Claim C1 counterexample: in the single-collection variant an
embedding/store error raised during batch submission is printed and then
re-raised (`raise` in the final `except` block of `main`), so it escapes
the top-level entry point instead of being isolated: with a valid key,
one well-formed file and a store that rejects the batch, `main` ends in
an error. -/
theorem single_submit_error_escapes :
    main_single envOK [fileA] badSubmit = Except.error (MainError.submitErr "boom") := by
  rfl

/-- Claim C1 (amended): per-file failure isolation holds for load errors
in both variants and for submit errors in the separate-collections
variant.  With a valid credential the separate driver always completes
(never raises), mapping every file independently — hence any mix of
per-file load/submit errors is caught, recorded with the file's path and
message, and does not affect other files; and the single-collection
driver completes with the per-file load outcomes whenever submission
succeeds.  A submission error in the single-collection variant is,
however, re-raised out of the entry point (see
`single_submit_error_escapes`). -/
theorem per_file_isolation (env : String → Option String) (k : String)
    (h1 : env "OPENAI_API_KEY" = some k) (h2 : k ≠ "")
    (files : List FileInput) (submit : String → List Document → Except String Unit) :
    main_separate env files submit = Except.ok (files.map (processFileSep submit)) ∧
      ((∀ b, submit "techmart_data" b = Except.ok ()) →
        main_single env files submit =
          Except.ok ⟨loadPhase files,
            (chunkList 100 (allDocs (loadPhase files))).map (fun b => ("techmart_data", b))⟩) :=
  ⟨main_separate_ok env k h1 h2 files submit,
   fun hs => main_single_ok env k h1 h2 files submit hs⟩

/-- Witness for `per_file_isolation`: a run over three files where the
second is malformed completes in both variants, the per-file outcomes
being the map over the three files. -/
theorem per_file_isolation_witness :
    main_separate envOK [fileA, fileBad, fileB] okSubmit =
        Except.ok ([fileA, fileBad, fileB].map (processFileSep okSubmit)) ∧
      main_single envOK [fileA, fileBad, fileB] okSubmit =
        Except.ok ⟨loadPhase [fileA, fileBad, fileB],
          (chunkList 100 (allDocs (loadPhase [fileA, fileBad, fileB]))).map
            (fun b => ("techmart_data", b))⟩ :=
  ⟨(per_file_isolation envOK "sk-test" rfl (by decide) [fileA, fileBad, fileB] okSubmit).1,
   (per_file_isolation envOK "sk-test" rfl (by decide) [fileA, fileBad, fileB] okSubmit).2
     (fun _ => rfl)⟩

/-- Claim C2: for every document sequence and every positive batch size
`B` (the drivers fix `B = 100`), the batching loop produces exactly
`⌈L/B⌉ = (L + B - 1) / B` batches, every batch except possibly the last
has length exactly `B`, and concatenating the batches in submission
order reproduces the original sequence. -/
theorem batch_partition_exact (B : Nat) (l : List Document) (hB : 0 < B) :
    (chunkList B l).length = (l.length + B - 1) / B ∧
      (∀ b ∈ (chunkList B l).dropLast, b.length = B) ∧
      (chunkList B l).flatten = l :=
  chunkList_spec B hB l

/-- Witness for `batch_partition_exact` at `B = 2` on a concrete
three-document sequence. -/
theorem batch_partition_exact_witness :
    (0 : Nat) < 2 ∧
      ((chunkList 2 docsW).length = (docsW.length + 2 - 1) / 2 ∧
        (∀ b ∈ (chunkList 2 docsW).dropLast, b.length = 2) ∧
        (chunkList 2 docsW).flatten = docsW) :=
  ⟨by decide, batch_partition_exact 2 docsW (by decide)⟩

/-- Claim C3 counterexample: a file whose single row has a column
literally named `row_index`, with value `"7"`; the loader's document
then carries `row_index ↦ "7"` (the column value), not its zero-based
position `0`, so the claim fails as universally stated. -/
theorem row_index_overwritten_counterexample :
    ((load_csv_as_documents "data/x.csv" [[("row_index", "7")]]).map
        (fun d => mlookup "row_index" d.metadata)) = [some (MetaVal.str "7")] ∧
      some (MetaVal.str "7") ≠ some (MetaVal.nat 0) :=
  ⟨rfl, by decide⟩

/-- Claim C3 (amended): for every file the loader produces exactly one
document per row; the `i`-th document is rendered from the `i`-th row
(row order preserved); and whenever no column of that row is named
`row_index`, its metadata maps `row_index` to `i`, the row's zero-based
position. -/
theorem load_count_and_row_index (path : String) (df : List Row) (i : Nat) (row : Row)
    (hrow : df[i]? = some row) (hcol : ∀ cv ∈ row, cv.1 ≠ "row_index") :
    (load_csv_as_documents path df).length = df.length ∧
      (load_csv_as_documents path df)[i]? =
        some { page_content := render_row row, metadata := row_metadata path i row } ∧
      ((load_csv_as_documents path df)[i]?).map (fun d => mlookup "row_index" d.metadata) =
        some (some (MetaVal.nat i)) := by
  have hget : (load_csv_as_documents path df)[i]? =
      some { page_content := render_row row, metadata := row_metadata path i row } := by
    rw [load_getElem?, hrow]
    rfl
  refine ⟨load_length path df, hget, ?_⟩
  rw [hget]
  show some (mlookup "row_index" (row_metadata path i row)) = some (some (MetaVal.nat i))
  unfold row_metadata
  rw [mlookup_foldl, lastCol_eq_none row _ hcol]
  rfl

/-- Witness for `load_count_and_row_index` on a concrete one-row file. -/
theorem load_count_and_row_index_witness :
    (load_csv_as_documents "data/a.csv" [[("name", "x")]]).length =
        ([[("name", "x")]] : List Row).length ∧
      (load_csv_as_documents "data/a.csv" [[("name", "x")]])[0]? =
        some ⟨render_row [("name", "x")], row_metadata "data/a.csv" 0 [("name", "x")]⟩ ∧
      ((load_csv_as_documents "data/a.csv" [[("name", "x")]])[0]?).map
          (fun d => mlookup "row_index" d.metadata) =
        some (some (MetaVal.nat 0)) :=
  load_count_and_row_index "data/a.csv" [[("name", "x")]] 0 [("name", "x")]
    (by decide) (by decide)

/-- Claim C4: the collection name is a pure, deterministic function of the
input file's stem — the source's replace-then-lower pipeline agrees with
the spec's lower-then-replace description for every path — and the file
name `"My File-1.csv"` yields the collection name `"my_file_1"`. -/
theorem collection_name_spec :
    (∀ p : String, get_collection_name p = spec_collection_name_of_stem (stem p)) ∧
      get_collection_name "My File-1.csv" = "my_file_1" := by
  constructor
  · intro p
    unfold get_collection_name spec_collection_name_of_stem lowerStr replChar
    simp only [strMap_strMap]
    congr 1
    funext c
    exact lower_repl_comm c
  · decide

/-- Claim C5: collection-name derivation is not injective and collisions
pass silently: the two distinct file names `"My-File.csv"` and
`"my_file.csv"` both normalize to `"my_file"`, and a separate-collections
run over both reports two plain successes into the same collection, with
no error. -/
theorem collection_name_collision :
    get_collection_name "My-File.csv" = "my_file" ∧
      get_collection_name "my_file.csv" = "my_file" ∧
      ("My-File.csv" : String) ≠ "my_file.csv" ∧
      main_separate envOK
          [⟨"My-File.csv", Except.ok [[("name", "x")]]⟩,
            ⟨"my_file.csv", Except.ok [[("name", "y")]]⟩] okSubmit =
        Except.ok
          [FileResult.success "My-File.csv" "my_file" 1,
            FileResult.success "my_file.csv" "my_file" 1] :=
  ⟨by decide, by decide, by decide, by decide⟩

/-- Claim C6: when a column name equals a reserved metadata key
(`source`, `row_index` or `file_path`), the column's (last) value
overwrites the reserved value in the document's metadata, and the loader
still produces one document per row rather than reporting an error. -/
theorem reserved_key_overwrite (path : String) (df : List Row) (i : Nat) (row : Row)
    (k v : String) (hrow : df[i]? = some row)
    (_hres : k = "source" ∨ k = "row_index" ∨ k = "file_path")
    (hlast : lastCol k row = some v) :
    (load_csv_as_documents path df).length = df.length ∧
      ((load_csv_as_documents path df)[i]?).map (fun d => mlookup k d.metadata) =
        some (some (MetaVal.str v)) := by
  have hget : (load_csv_as_documents path df)[i]? =
      some { page_content := render_row row, metadata := row_metadata path i row } := by
    rw [load_getElem?, hrow]
    rfl
  refine ⟨load_length path df, ?_⟩
  rw [hget]
  show some (mlookup k (row_metadata path i row)) = some (some (MetaVal.str v))
  unfold row_metadata
  rw [mlookup_foldl, hlast]

/-- Witness for `reserved_key_overwrite`: a row with a column literally
named `source` whose value `"evil"` ends up under the `source` key. -/
theorem reserved_key_overwrite_witness :
    (load_csv_as_documents "data/a.csv" [[("source", "evil")]]).length =
        ([[("source", "evil")]] : List Row).length ∧
      ((load_csv_as_documents "data/a.csv" [[("source", "evil")]])[0]?).map
          (fun d => mlookup "source" d.metadata) =
        some (some (MetaVal.str "evil")) :=
  reserved_key_overwrite "data/a.csv" [[("source", "evil")]] 0 [("source", "evil")]
    "source" "evil" (by decide) (Or.inl rfl) (by decide)

/-- Claim C7: every document's body is the row's columns rendered as
`"col: val"` pairs joined by `" | "` in the file's column order, and the
rendering is deterministic — it depends only on the row, so loading the
same row again (even at another path or position) yields a byte-identical
body. -/
theorem body_format_deterministic (path path' : String) (df df' : List Row)
    (i j : Nat) (row : Row) (h1 : df[i]? = some row) (h2 : df'[j]? = some row) :
    ((load_csv_as_documents path df)[i]?).map Document.page_content =
      some (String.intercalate " | " (row.map (fun cv => cv.1 ++ ": " ++ cv.2))) ∧
      ((load_csv_as_documents path df)[i]?).map Document.page_content =
        ((load_csv_as_documents path' df')[j]?).map Document.page_content := by
  have hg1 : (load_csv_as_documents path df)[i]? =
      some { page_content := render_row row, metadata := row_metadata path i row } := by
    rw [load_getElem?, h1]
    rfl
  have hg2 : (load_csv_as_documents path' df')[j]? =
      some { page_content := render_row row, metadata := row_metadata path' j row } := by
    rw [load_getElem?, h2]
    rfl
  constructor
  · rw [hg1]
    rfl
  · rw [hg1, hg2]
    rfl

/-- Witness for `body_format_deterministic`: the same row at different
paths and positions renders identically. -/
theorem body_format_deterministic_witness :
    ((load_csv_as_documents "data/a.csv" [[("name", "x")]])[0]?).map Document.page_content =
        some (String.intercalate " | "
          ([("name", "x")].map (fun cv => cv.1 ++ ": " ++ cv.2))) ∧
      ((load_csv_as_documents "data/a.csv" [[("name", "x")]])[0]?).map Document.page_content =
        ((load_csv_as_documents "data/b.csv"
            [[("other", "z")], [("name", "x")]])[1]?).map Document.page_content :=
  body_format_deterministic "data/a.csv" "data/b.csv" [[("name", "x")]]
    [[("other", "z")], [("name", "x")]] 0 1 [("name", "x")] (by decide) (by decide)

/-- Claim C8: every loaded document's metadata maps `source` to the file's
basename, `row_index` to the row's position, `file_path` to the full
input path, and each original column to its raw value — under the claim's
assumption that no column name collides with a reserved key (and, as
`pd.read_csv` guarantees, column names are distinct). -/
theorem metadata_contents (path : String) (df : List Row) (i : Nat) (row : Row)
    (hrow : df[i]? = some row)
    (hres : ∀ cv ∈ row, cv.1 ≠ "source" ∧ cv.1 ≠ "row_index" ∧ cv.1 ≠ "file_path")
    (hnd : (row.map Prod.fst).Nodup) :
    ((load_csv_as_documents path df)[i]?).map
        (fun d => (mlookup "source" d.metadata, mlookup "row_index" d.metadata,
          mlookup "file_path" d.metadata)) =
      some (some (MetaVal.str (basename path)), some (MetaVal.nat i),
        some (MetaVal.str path)) ∧
      ∀ cv ∈ row,
        ((load_csv_as_documents path df)[i]?).map (fun d => mlookup cv.1 d.metadata) =
          some (some (MetaVal.str cv.2)) := by
  have hget : (load_csv_as_documents path df)[i]? =
      some { page_content := render_row row, metadata := row_metadata path i row } := by
    rw [load_getElem?, hrow]
    rfl
  constructor
  · rw [hget]
    show some (mlookup "source" (row_metadata path i row),
        mlookup "row_index" (row_metadata path i row),
        mlookup "file_path" (row_metadata path i row)) = _
    unfold row_metadata
    rw [mlookup_foldl, mlookup_foldl, mlookup_foldl,
      lastCol_eq_none row _ (fun cv h => (hres cv h).1),
      lastCol_eq_none row _ (fun cv h => (hres cv h).2.1),
      lastCol_eq_none row _ (fun cv h => (hres cv h).2.2)]
    rfl
  · intro cv hcv
    rw [hget]
    show some (mlookup cv.1 (row_metadata path i row)) = some (some (MetaVal.str cv.2))
    unfold row_metadata
    rw [mlookup_foldl, lastCol_of_mem row cv.1 cv.2 hnd hcv]

/-- Witness for `metadata_contents` on a concrete two-column row. -/
theorem metadata_contents_witness :
    ((load_csv_as_documents "data/a.csv" [[("name", "x"), ("price", "3")]])[0]?).map
        (fun d => (mlookup "source" d.metadata, mlookup "row_index" d.metadata,
          mlookup "file_path" d.metadata)) =
      some (some (MetaVal.str (basename "data/a.csv")), some (MetaVal.nat 0),
        some (MetaVal.str "data/a.csv")) ∧
      ∀ cv ∈ ([("name", "x"), ("price", "3")] : Row),
        ((load_csv_as_documents "data/a.csv"
            [[("name", "x"), ("price", "3")]])[0]?).map
            (fun d => mlookup cv.1 d.metadata) =
          some (some (MetaVal.str cv.2)) :=
  metadata_contents "data/a.csv" [[("name", "x"), ("price", "3")]] 0
    [("name", "x"), ("price", "3")] (by decide) (by decide) (by decide)

/-- Claim C9 counterexample: with `OPENAI_API_KEY` present in the
environment but set to the empty string, the Python falsy check still
raises, so "if it is present, this check raises no error" fails. -/
theorem api_key_present_empty_counterexample :
    envEmptyKey "OPENAI_API_KEY" = some "" ∧
      main_single envEmptyKey [] okSubmit =
        Except.error (MainError.config "OPENAI_API_KEY environment variable is required") ∧
      main_separate envEmptyKey [] okSubmit =
        Except.error (MainError.config "OPENAI_API_KEY environment variable is required") :=
  ⟨rfl, rfl, rfl⟩

/-- Claim C9 (amended): if the credential is absent — or present but
empty, which the falsy check also rejects — both entry points fail with
the configuration error before performing any work (the result is that
same error for every file list and every submitter); if it is present
and non-empty, neither entry point can fail with a configuration
error. -/
theorem api_key_check (env : String → Option String) :
    ((env "OPENAI_API_KEY" = none ∨ env "OPENAI_API_KEY" = some "") →
      ∀ files submit,
        main_single env files submit =
            Except.error (MainError.config "OPENAI_API_KEY environment variable is required") ∧
          main_separate env files submit =
            Except.error (MainError.config "OPENAI_API_KEY environment variable is required")) ∧
      (∀ k, env "OPENAI_API_KEY" = some k → k ≠ "" →
        ∀ files submit e,
          main_single env files submit ≠ Except.error (MainError.config e) ∧
            main_separate env files submit ≠ Except.error (MainError.config e)) := by
  constructor
  · intro h files submit
    have hkey : getApiKey env =
        Except.error (MainError.config "OPENAI_API_KEY environment variable is required") := by
      unfold getApiKey
      rcases h with h | h
      · rw [h]
      · rw [h]
        rfl
    constructor
    · unfold main_single
      rw [hkey]
    · unfold main_separate
      rw [hkey]
  · intro k hk hne files submit e
    have hkey := getApiKey_ok env k hk hne
    constructor
    · unfold main_single
      rw [hkey]
      by_cases hf : files.isEmpty
      · simp [hf]
      · simp only [if_neg hf]
        by_cases ha : (allDocs (loadPhase files)).isEmpty
        · simp [ha]
        · simp only [if_neg ha]
          cases hsb : submitBatches submit "techmart_data"
              (chunkList 100 (allDocs (loadPhase files))) with
          | error e2 => simp
          | ok log => simp
    · unfold main_separate
      rw [hkey]
      cases files <;> simp

/-- Witness for `api_key_check`: with no key in the environment both
entry points fail with the configuration error. -/
theorem api_key_check_witness :
    main_single envMissing [] okSubmit =
        Except.error (MainError.config "OPENAI_API_KEY environment variable is required") ∧
      main_separate envMissing [] okSubmit =
        Except.error (MainError.config "OPENAI_API_KEY environment variable is required") :=
  (api_key_check envMissing).1 (Or.inl rfl) [] okSubmit

/-- Claim C10: in the single-collection variant the documents of all
successfully loaded files are concatenated in discovery order before any
batching, every batch is submitted to the fixed collection
`"techmart_data"`, and a batch may contain documents from different
input files: in the concrete two-file run the one submitted batch holds
a document sourced from `a.csv` and one sourced from `b.csv`. -/
theorem single_collection_routing (env : String → Option String) (k : String)
    (h1 : env "OPENAI_API_KEY" = some k) (h2 : k ≠ "")
    (files : List FileInput) (submit : String → List Document → Except String Unit)
    (hs : ∀ b, submit "techmart_data" b = Except.ok ()) :
    main_single env files submit =
      Except.ok ⟨loadPhase files,
        (chunkList 100 (allDocs (loadPhase files))).map (fun b => ("techmart_data", b))⟩ ∧
      allDocs (loadPhase files) =
        (files.map (fun f =>
          match f.parse with
          | Except.ok df => load_csv_as_documents f.path df
          | Except.error _ => [])).flatten ∧
      ((main_single envOK [fileA, fileB] okSubmit).map (fun r =>
          r.submissions.map (fun p => (p.1, p.2.map (fun d => mlookup "source" d.metadata))))) =
        Except.ok [("techmart_data", [some (MetaVal.str "a.csv"), some (MetaVal.str "b.csv")])] :=
  ⟨main_single_ok env k h1 h2 files submit hs, allDocs_loadPhase files, by decide⟩

/-- Witness for `single_collection_routing` on the concrete two-file run. -/
theorem single_collection_routing_witness :
    main_single envOK [fileA, fileB] okSubmit =
      Except.ok ⟨loadPhase [fileA, fileB],
        (chunkList 100 (allDocs (loadPhase [fileA, fileB]))).map
          (fun b => ("techmart_data", b))⟩ ∧
      allDocs (loadPhase [fileA, fileB]) =
        ([fileA, fileB].map (fun f =>
          match f.parse with
          | Except.ok df => load_csv_as_documents f.path df
          | Except.error _ => [])).flatten ∧
      ((main_single envOK [fileA, fileB] okSubmit).map (fun r =>
          r.submissions.map (fun p => (p.1, p.2.map (fun d => mlookup "source" d.metadata))))) =
        Except.ok [("techmart_data", [some (MetaVal.str "a.csv"), some (MetaVal.str "b.csv")])] :=
  single_collection_routing envOK "sk-test" rfl (by decide) [fileA, fileB] okSubmit
    (fun _ => rfl)

end Ingest
